import Mathlib

/-!
# Verification of the InferMesh decentralized P2P node (state-p2p-node.js)

A shallow embedding of the node engine of `src/state-p2p-node.js`
(the `DecentralizedNode` class): the document, the peer table, message
validation, the replication handler `handleMessage`, the local mutation
API `updateState`/`deleteState`, `broadcast`, persistence
(`saveState`/`loadState`/`validateState`), registry discovery
(`discoverNodes`) and `shutdown`.

JavaScript dynamic values are modelled by the mutual inductives
`JsValue`/`JsFields` (JS numbers as rationals; `NaN`/coercion corners
do not arise on the paths the theorems exercise because validation
guards them).  Side effects (file writes, socket sends, event
emissions, closures) are modelled as an ordered `List Effect` returned
next to the new node state, so ordering claims (persist before
broadcast) are provable.
-/

mutual
/-- A JavaScript runtime value, as far as the node engine inspects one:
`undefined`, `null`, booleans, numbers (modelled as rationals),
strings and plain objects (ordered field lists). -/
inductive JsValue where
  | undef
  | null
  | boolean (b : Bool)
  | number (q : Rat)
  | string (s : String)
  | object (fields : JsFields)
deriving DecidableEq

/-- The ordered field list of a JS object (keys unique by construction
through `JsFields.set`). -/
inductive JsFields where
  | nil
  | cons (key : String) (value : JsValue) (rest : JsFields)
deriving DecidableEq
end

namespace JsFields

/-- Property lookup on an object's field list (keys are unique, the
first match wins). -/
def lookup : JsFields → String → Option JsValue
  | nil, _ => none
  | cons k v rest, key => if k = key then some v else lookup rest key

/-- JS property assignment `m[key] = v`: overwrite in place if the key
exists, otherwise append (JS insertion order). -/
def set : JsFields → String → JsValue → JsFields
  | nil, key, v => cons key v nil
  | cons k w rest, key, v =>
      if k = key then cons k v rest else cons k w (set rest key v)

/-- JS `delete m[key]`. -/
def remove : JsFields → String → JsFields
  | nil, _ => nil
  | cons k w rest, key =>
      if k = key then remove rest key else cons k w (remove rest key)

/-- JS object spread `{...a, ...b}`: the fields of `b` assigned over
`a` in order. -/
def spreadMerge (a : JsFields) : JsFields → JsFields
  | nil => a
  | cons k v rest => spreadMerge (a.set k v) rest

end JsFields

namespace JsValue

/-- JS property read `v[key]`: a missing field or a read on a
non-object yields `undefined`. -/
def getField : JsValue → String → JsValue
  | object fields, key => (fields.lookup key).getD undef
  | _, _ => undef

/-- JS truthiness: `undefined`, `null`, `false`, `0` and `""` are
falsy; every object is truthy. -/
def truthy : JsValue → Bool
  | undef => false
  | null => false
  | boolean b => b
  | number q => decide (q ≠ 0)
  | string s => decide (s ≠ "")
  | object _ => true

/-- The JS `typeof` operator (note `typeof null === "object"`). -/
def typeOf : JsValue → String
  | undef => "undefined"
  | null => "object"
  | boolean _ => "boolean"
  | number _ => "number"
  | string _ => "string"
  | object _ => "object"

/-- Numeric value of a `JsValue` known (by a `typeOf = "number"` guard)
to be a number; other shapes map to 0 and are never reached on guarded
paths. -/
def asNumber : JsValue → Rat
  | number q => q
  | _ => 0

/-- String value of a `JsValue` known (by a `typeOf = "string"` guard)
to be a string. -/
def asString : JsValue → String
  | string s => s
  | _ => ""

/-- Field list of a `JsValue` known to be an object. -/
def asFields : JsValue → JsFields
  | object fields => fields
  | _ => .nil

end JsValue

/-- JS object update `v[key] = x` on a whole `JsValue` (no-op on
non-objects, which never occur on the guarded paths using it). -/
def setObjField (v : JsValue) (key : String) (x : JsValue) : JsValue :=
  match v with
  | .object fields => .object (fields.set key x)
  | _ => v

/-- The node's document: `this.state = { data, version, timestamp }`.
`version` and `timestamp` are JS numbers, hence rationals. -/
structure Doc where
  data : JsFields
  version : Rat
  timestamp : Rat
deriving DecidableEq

/-- A WebSocket handle: identity (`id`) models JS reference equality
(`peer.ws !== excludeWs`), `readyState` the socket state
(`WebSocket.OPEN = 1`). -/
structure Ws where
  id : Nat
  readyState : Nat
deriving DecidableEq

/-- The `WebSocket.OPEN` ready-state constant. -/
def wsOPEN : Nat := 1

/-- A peer-table entry: `this.peers.set(nodeId, { ws, port })`. -/
structure Peer where
  ws : Ws
  port : JsValue
deriving DecidableEq

/-- `Map.has` on the peer table (keys are the raw `message.nodeId`
values). -/
def peersHas (peers : List (JsValue × Peer)) (key : JsValue) : Bool :=
  match peers with
  | [] => false
  | (k, _) :: rest => if k = key then true else peersHas rest key

/-- The mutable fields of a `DecentralizedNode` that the verified
operations touch.  `intervalTasks` records the periodic `setInterval`
tasks started during node initialization (their handles are not stored
by the source, so nothing can clear them); `reconnectTimeouts` the
pending per-peer reconnect timers. -/
structure NodeState where
  nodeId : String
  state : Doc
  peers : List (JsValue × Peer)
  reconnectTimeouts : List JsValue
  intervalTasks : List String
  serverOpen : Bool
deriving DecidableEq

/-- An observable side effect of an operation, in program order:
a persistence write (`saveState`), a socket send, a `stateUpdated`
event emission, a socket close, the server close. -/
inductive Effect where
  | save (d : Doc)
  | send (w : Ws) (msg : JsValue)
  | emit (d : Doc)
  | closeWs (w : Ws)
  | closeServer
deriving DecidableEq

/-- `broadcast(message, excludeWs)` (lines 643-654): send the message
to every peer whose socket is not the excluded one and is in the OPEN
state. -/
def broadcast (peers : List (JsValue × Peer)) (msg : JsValue)
    (excludeWs : Option Ws) : List Effect :=
  match peers with
  | [] => []
  | (_, p) :: rest =>
      if excludeWs = some p.ws then
        broadcast rest msg excludeWs
      else if p.ws.readyState = wsOPEN then
        Effect.send p.ws msg :: broadcast rest msg excludeWs
      else
        broadcast rest msg excludeWs

/-- `validateMessage(message)` (lines 619-641): the structural
wire-message check. -/
def validateMessage (message : JsValue) : Bool :=
  if !message.truthy || message.typeOf != "object" then false
  else
    match message.getField "type" with
    | .string "INFO" =>
        (message.getField "nodeId").truthy &&
        (message.getField "port").truthy &&
        (message.getField "state").truthy &&
        ((message.getField "state").getField "version").typeOf == "number"
    | .string "STATE_UPDATE" =>
        (message.getField "data").truthy &&
        (message.getField "data").typeOf == "object" &&
        (message.getField "version").typeOf == "number"
    | .string "DELETE_STATE" =>
        (message.getField "key").typeOf == "string" &&
        (message.getField "version").typeOf == "number"
    | _ => false

/-- The JS comparison `a > b` where `a` is a message's version field
(a number on every validated path) and `b` the current version. -/
def jsGtNum (a : JsValue) (b : Rat) : Bool :=
  match a with
  | .number q => decide (q > b)
  | _ => false

/-- Reading a document out of a raw in-wire `state` object
(`this.state = message.state`); on every path that stores one, the
carried `version` is a validated number. -/
def jsToDoc (s : JsValue) : Doc :=
  { data := (s.getField "data").asFields
    version := (s.getField "version").asNumber
    timestamp := (s.getField "timestamp").asNumber }

/-- Serializing the document back to a JS object, as
`JSON.stringify(this.state)` would ship or store it. -/
def docToJs (d : Doc) : JsValue :=
  .object (.cons "data" (.object d.data)
            (.cons "version" (.number d.version)
              (.cons "timestamp" (.number d.timestamp) .nil)))

/-- `handleMessage(message, ws)` (lines 573-617): validate, then
dispatch on the message tag; accepted mutations persist, (for
`STATE_UPDATE`/`DELETE_STATE`) rebroadcast excluding the sender, and
emit `stateUpdated`, in that order.  `now` stands for `Date.now()`. -/
def handleMessage (now : Rat) (message : JsValue) (ws : Ws)
    (n : NodeState) : NodeState × List Effect :=
  if validateMessage message = false then (n, [])
  else
    match message.getField "type" with
    | .string "INFO" =>
        let nid := message.getField "nodeId"
        let n1 :=
          if peersHas n.peers nid then n
          else { n with peers :=
                  n.peers ++ [(nid, ⟨ws, message.getField "port"⟩)] }
        let mstate := message.getField "state"
        if jsGtNum (mstate.getField "version") n.state.version then
          let newDoc := jsToDoc mstate
          ({ n1 with state := newDoc },
           [Effect.save newDoc, Effect.emit newDoc])
        else (n1, [])
    | .string "STATE_UPDATE" =>
        if jsGtNum (message.getField "version") n.state.version then
          let newDoc : Doc :=
            { data := n.state.data.spreadMerge
                        (message.getField "data").asFields
              version := (message.getField "version").asNumber
              timestamp := now }
          ({ n with state := newDoc },
           Effect.save newDoc ::
             broadcast n.peers message (some ws) ++ [Effect.emit newDoc])
        else (n, [])
    | .string "DELETE_STATE" =>
        if jsGtNum (message.getField "version") n.state.version then
          let newDoc : Doc :=
            { data := n.state.data.remove
                        (message.getField "key").asString
              version := (message.getField "version").asNumber
              timestamp := now }
          ({ n with state := newDoc },
           Effect.save newDoc ::
             broadcast n.peers message (some ws) ++ [Effect.emit newDoc])
        else (n, [])
    | _ => (n, [])

/-- The wire message built by `updateState` (lines 664-668):
`{ type: "STATE_UPDATE", data: { [key]: value }, version }`. -/
def stateUpdateMsg (key : String) (value : JsValue) (version : Rat) :
    JsValue :=
  .object (.cons "type" (.string "STATE_UPDATE")
            (.cons "data" (.object (.cons key value .nil))
              (.cons "version" (.number version) .nil)))

/-- The wire message built by `deleteState` (lines 686-690):
`{ type: "DELETE_STATE", key, version }`. -/
def deleteStateMsg (key : String) (version : Rat) : JsValue :=
  .object (.cons "type" (.string "DELETE_STATE")
            (.cons "key" (.string key)
              (.cons "version" (.number version) .nil)))

/-- `updateState(key, value)` (lines 656-675): bump the version, set
the key, refresh the timestamp, persist, broadcast a `STATE_UPDATE`
carrying only that key to all peers.  No `stateUpdated` emission. -/
def updateState (now : Rat) (key : String) (value : JsValue)
    (n : NodeState) : NodeState × List Effect :=
  let newDoc : Doc :=
    { data := n.state.data.set key value
      version := n.state.version + 1
      timestamp := now }
  ({ n with state := newDoc },
   Effect.save newDoc ::
     broadcast n.peers (stateUpdateMsg key value newDoc.version) none)

/-- `deleteState(key)` (lines 677-699): if the key exists, bump the
version, remove it, refresh the timestamp, persist, broadcast a
`DELETE_STATE`; the boolean reports whether a deletion occurred. -/
def deleteState (now : Rat) (key : String) (n : NodeState) :
    NodeState × List Effect × Bool :=
  if (n.state.data.lookup key).isSome then
    let newDoc : Doc :=
      { data := n.state.data.remove key
        version := n.state.version + 1
        timestamp := now }
    ({ n with state := newDoc },
     (Effect.save newDoc ::
        broadcast n.peers (deleteStateMsg key newDoc.version) none, true))
  else (n, ([], false))

/-- The file content written by `saveState()` (lines 219-235):
`{ nodeId, state, timestamp: Date.now() }`, written to a temp file and
atomically renamed over the canonical path. -/
def saveFileContent (n : NodeState) (savedAt : Rat) : JsValue :=
  .object (.cons "nodeId" (.string n.nodeId)
            (.cons "state" (docToJs n.state)
              (.cons "timestamp" (.number savedAt) .nil)))

/-- `validateState(state)` (lines 260-268): structural check of a
loaded persistence file. -/
def validateState (s : JsValue) : Bool :=
  s.truthy &&
  s.typeOf == "object" &&
  (s.getField "nodeId").truthy &&
  (s.getField "state").truthy &&
  ((s.getField "state").getField "version").typeOf == "number" &&
  ((s.getField "state").getField "timestamp").typeOf == "number" &&
  ((s.getField "state").getField "data").typeOf == "object"

/-- `loadState()` (lines 237-258), on the parsed canonical file:
missing file or failed validation leaves the in-memory state
untouched (corrupted files are quarantined aside); on a validated
file whose `nodeId` matches, the stored document replaces the
state. -/
def loadState (file : Option JsValue) (n : NodeState) : NodeState :=
  match file with
  | none => n
  | some f =>
      if validateState f = false then n
      else if f.getField "nodeId" = .string n.nodeId then
        { n with state := jsToDoc (f.getField "state") }
      else n

/-- A fresh node as constructed by `new DecentralizedNode(key)`:
empty document at version 0, no peers, no timers. -/
def freshNode (nodeId : String) (now : Rat) : NodeState :=
  { nodeId := nodeId
    state := { data := .nil, version := 0, timestamp := now }
    peers := []
    reconnectTimeouts := []
    intervalTasks := []
    serverOpen := false }

/-- The validity filter of `discoverNodes` (line 339): descriptors
missing `nodeId`, `host` or `port` are skipped. -/
def validNodeInfo (info : JsValue) : Bool :=
  (info.getField "nodeId").truthy &&
  (info.getField "host").truthy &&
  (info.getField "port").truthy

/-- The freshness test `currentTime - nodeInfo.lastSeen < 3600000`
(line 344); false when `lastSeen` is not a number (a NaN comparison is
false in JS, sending the entry to the clean-up branch). -/
def freshEnough (currentTime : Rat) (info : JsValue) : Bool :=
  match info.getField "lastSeen" with
  | .number q => decide (currentTime - q < 3600000)
  | _ => false

/-- The `isConnected` then `isSelf` annotation applied to a surviving
descriptor (lines 345-346). -/
def annotateInfo (n : NodeState) (info : JsValue) : JsValue :=
  setObjField
    (setObjField info "isConnected"
      (.boolean (peersHas n.peers (info.getField "nodeId"))))
    "isSelf" (.boolean (decide (info.getField "nodeId" = .string n.nodeId)))

/-- A descriptor file of the shared registry directory, as parsed by
`discoverNodes` (file name plus parsed JSON content; files the source
fails to parse are skipped there and are not modelled). -/
structure RegistryEntry where
  name : String
  content : JsValue
deriving DecidableEq

/-- The `file.endsWith(".json")` filter of `discoverNodes` (line 332),
expressed over the character list so that concrete instances
compute. -/
def isJsonFile (name : String) : Bool :=
  ".json".data.isSuffixOf name.data

/-- `discoverNodes()` (lines 325-360): skip non-`.json` and invalid
entries, return fresh descriptors annotated with `isConnected` and
`isSelf`, unlink stale ones.  Returns the surviving annotated
descriptors and the deleted file names, in directory order. -/
def discoverNodes (n : NodeState) (currentTime : Rat) :
    List RegistryEntry → List JsValue × List String
  | [] => ([], [])
  | e :: rest =>
      if isJsonFile e.name = false then
        discoverNodes n currentTime rest
      else if validNodeInfo e.content = false then
        discoverNodes n currentTime rest
      else if freshEnough currentTime e.content then
        let acc := discoverNodes n currentTime rest
        (annotateInfo n e.content :: acc.1, acc.2)
      else
        let acc := discoverNodes n currentTime rest
        (acc.1, e.name :: acc.2)

/-- The portion of node initialization that arms the four periodic
`setInterval` tasks and opens the server (lines 397-404); the interval
handles are not retained by the source, so no later operation can
cancel them. -/
def initTimers (n : NodeState) : NodeState :=
  { n with serverOpen := true
           intervalTasks := ["updateNodeRegistry", "saveState",
                             "startNetworkDiscovery", "checkPeerHealth"] }

/-- `shutdown()` (lines 705-736): clear the reconnect timers, close
and clear every peer connection, close the server, write one final
snapshot, in that order.  The `setInterval` tasks armed by
`initTimers` are untouched. -/
def shutdown (n : NodeState) : NodeState × List Effect :=
  ({ n with reconnectTimeouts := [], peers := [], serverOpen := false },
   (n.peers.map fun p => Effect.closeWs p.2.ws) ++
     [Effect.closeServer, Effect.save n.state])

/-! ## Helper lemmas -/

theorem jsGtNum_lt {a : JsValue} {v : Rat} (h : jsGtNum a v = true) :
    v < a.asNumber := by
  cases a <;> simp_all [jsGtNum, JsValue.asNumber]

theorem handleMessage_version_mono (now : Rat) (message : JsValue) (ws : Ws)
    (n : NodeState) :
    n.state.version ≤ ((handleMessage now message ws n).1).state.version := by
  unfold handleMessage
  split
  · exact le_rfl
  split
  · dsimp only
    split
    · rename_i h
      split <;> exact le_of_lt (by simpa [jsToDoc] using jsGtNum_lt h)
    · split <;> exact le_rfl
  · dsimp only
    split
    · rename_i h
      exact le_of_lt (by simpa using jsGtNum_lt h)
    · exact le_rfl
  · dsimp only
    split
    · rename_i h
      exact le_of_lt (by simpa using jsGtNum_lt h)
    · exact le_rfl
  · exact le_rfl

/-- C5: the document version is monotonically non-decreasing across
every operation of the node: local `updateState`, local `deleteState`,
and the handling of any inbound `INFO`, `STATE_UPDATE` or
`DELETE_STATE` message either leave the version unchanged or strictly
increase it; no operation lowers it. -/
theorem C5_version_monotone (now : Rat) (message : JsValue) (ws : Ws)
    (key : String) (value : JsValue) (n : NodeState) :
    n.state.version ≤ ((handleMessage now message ws n).1).state.version ∧
    n.state.version ≤ ((updateState now key value n).1).state.version ∧
    n.state.version ≤ ((deleteState now key n).1).state.version := by
  refine ⟨handleMessage_version_mono now message ws n, ?_, ?_⟩
  · simp [updateState]
  · unfold deleteState
    split
    · simp
    · exact le_rfl

theorem lookup_set_self (m : JsFields) (k : String) (v : JsValue) :
    (m.set k v).lookup k = some v := by
  match m with
  | .nil => simp [JsFields.set, JsFields.lookup]
  | .cons k2 w rest =>
      by_cases h : k2 = k <;>
        simp [JsFields.set, JsFields.lookup, h, lookup_set_self rest k v]

theorem lookup_set_ne (m : JsFields) (k k2 : String) (v : JsValue)
    (h : k2 ≠ k) :
    (m.set k v).lookup k2 = m.lookup k2 := by
  match m with
  | .nil => simp [JsFields.set, JsFields.lookup, Ne.symm h]
  | .cons k3 w rest =>
      by_cases h3 : k3 = k
      · subst h3
        simp [JsFields.set, JsFields.lookup, Ne.symm h]
      · simp [JsFields.set, JsFields.lookup, h3, lookup_set_ne rest k k2 v h]

theorem mem_broadcast_iff (peers : List (JsValue × Peer)) (msg : JsValue)
    (ex : Option Ws) (e : Effect) :
    e ∈ broadcast peers msg ex ↔
      ∃ pid p, (pid, p) ∈ peers ∧ e = Effect.send p.ws msg ∧
        p.ws.readyState = wsOPEN ∧ ex ≠ some p.ws := by
  induction peers with
  | nil => simp [broadcast]
  | cons hd tl ih =>
      obtain ⟨pid2, p2⟩ := hd
      by_cases hex : ex = some p2.ws
      · simp only [broadcast, if_pos hex, ih, List.mem_cons]
        constructor
        · rintro ⟨pid, p, hmem, rfl, hopen, hne⟩
          exact ⟨pid, p, Or.inr hmem, rfl, hopen, hne⟩
        · rintro ⟨pid, p, heq | hmem2, rfl, hopen, hne⟩
          · exfalso
            apply hne
            rw [hex]
            cases heq
            rfl
          · exact ⟨pid, p, hmem2, rfl, hopen, hne⟩
      · by_cases hop : p2.ws.readyState = wsOPEN
        · simp only [broadcast, if_neg hex, if_pos hop, List.mem_cons, ih]
          constructor
          · rintro (rfl | ⟨pid, p, hmem, rfl, hopen, hne⟩)
            · exact ⟨pid2, p2, Or.inl rfl, rfl, hop, hex⟩
            · exact ⟨pid, p, Or.inr hmem, rfl, hopen, hne⟩
          · rintro ⟨pid, p, heq | hmem2, rfl, hopen, hne⟩
            · cases heq
              exact Or.inl rfl
            · exact Or.inr ⟨pid, p, hmem2, rfl, hopen, hne⟩
        · simp only [broadcast, if_neg hex, if_neg hop, ih, List.mem_cons]
          constructor
          · rintro ⟨pid, p, hmem, rfl, hopen, hne⟩
            exact ⟨pid, p, Or.inr hmem, rfl, hopen, hne⟩
          · rintro ⟨pid, p, heq | hmem2, rfl, hopen, hne⟩
            · cases heq
              exact absurd hop (by exact fun hh => by simp_all)
            · exact ⟨pid, p, hmem2, rfl, hopen, hne⟩

/-- C6: `updateState(key, value)` increments the document version by
exactly 1 (independent of how many keys the document holds), sets
`data[key]` to `value`, leaves all other keys unchanged, first
persists the document and then broadcasts a `STATE_UPDATE` carrying
only that key to every connected (open) peer; starting from the empty
document, `updateState("name","John")` yields
`{data:{name:"John"}, version:1}` and a following
`updateState("age",25)` yields
`{data:{name:"John",age:25}, version:2}`. -/
theorem C6_updateState_spec (now : Rat) (key : String) (value : JsValue)
    (n : NodeState) :
    ((updateState now key value n).1.state.version =
       n.state.version + 1) ∧
    ((updateState now key value n).1.state.data.lookup key =
       some value) ∧
    (∀ k, k ≠ key →
      (updateState now key value n).1.state.data.lookup k =
        n.state.data.lookup k) ∧
    ((updateState now key value n).2 =
      Effect.save (updateState now key value n).1.state ::
        broadcast n.peers
          (stateUpdateMsg key value (n.state.version + 1)) none) ∧
    (∀ pid p, (pid, p) ∈ n.peers → p.ws.readyState = wsOPEN →
      Effect.send p.ws (stateUpdateMsg key value (n.state.version + 1)) ∈
        (updateState now key value n).2) ∧
    ((updateState 1 "name" (.string "John") (freshNode "nodeA" 0)).1.state
        = ⟨.cons "name" (.string "John") .nil, 1, 1⟩ ∧
      (updateState 2 "age" (.number 25)
          (updateState 1 "name" (.string "John")
            (freshNode "nodeA" 0)).1).1.state
        = ⟨.cons "name" (.string "John")
             (.cons "age" (.number 25) .nil), 2, 2⟩) := by
  refine ⟨rfl, ?_, ?_, rfl, ?_,
    by refine ⟨by simp [updateState, freshNode, JsFields.set], ?_⟩
       simp [updateState, freshNode, JsFields.set]
       norm_num⟩
  · simp [updateState, lookup_set_self]
  · intro k hk
    simp [updateState, lookup_set_ne _ _ _ _ hk]
  · intro pid p hmem hopen
    exact List.mem_cons_of_mem _
      ((mem_broadcast_iff n.peers _ none _).mpr
        ⟨pid, p, hmem, rfl, hopen, by simp⟩)

/-- C6 witness: the theorem applied at a concrete input. -/
theorem C6_witness :
    (updateState 1 "name" (.string "John")
        (freshNode "nodeA" 0)).1.state.version = 0 + 1 :=
  (C6_updateState_spec 1 "name" (.string "John") (freshNode "nodeA" 0)).1

/-- The version an inbound wire message carries, compared against the
current document version exactly as `handleMessage` does: the carried
state's version for an `INFO` message, the top-level `version` field
for the other tags. -/
def carriedVersionGt (message : JsValue) (v : Rat) : Bool :=
  if message.getField "type" = .string "INFO" then
    jsGtNum ((message.getField "state").getField "version") v
  else jsGtNum (message.getField "version") v

/-- C4: an inbound `INFO`, `STATE_UPDATE` or `DELETE_STATE` message
whose carried version is not strictly greater than the current
document version leaves the document (data, version and timestamp)
unchanged and produces no effect at all: no broadcast, no persistence
write, no emission. -/
theorem C4_stale_message_noop (now : Rat) (message : JsValue) (ws : Ws)
    (n : NodeState)
    (h : carriedVersionGt message n.state.version = false) :
    (handleMessage now message ws n).1.state = n.state ∧
    (handleMessage now message ws n).2 = [] := by
  unfold handleMessage
  split
  · exact ⟨rfl, rfl⟩
  rw [carriedVersionGt] at h
  split
  · rename_i heq
    rw [if_pos heq] at h
    dsimp only
    rw [h]
    constructor
    · simp only [Bool.false_eq_true, if_false]
      split <;> rfl
    · simp only [Bool.false_eq_true, if_false]
  · rename_i heq
    rw [if_neg (by rw [heq]; simp)] at h
    dsimp only
    rw [h]
    simp only [Bool.false_eq_true, if_false]
    exact ⟨trivial, trivial⟩
  · rename_i heq
    rw [if_neg (by rw [heq]; simp)] at h
    dsimp only
    rw [h]
    simp only [Bool.false_eq_true, if_false]
    exact ⟨trivial, trivial⟩
  · exact ⟨rfl, rfl⟩

/-- A sample inbound `STATE_UPDATE{data:{x:1}, version:5}` wire
message. -/
def sampleStaleMsg : JsValue :=
  .object (.cons "type" (.string "STATE_UPDATE")
    (.cons "data" (.object (.cons "x" (.number 1) .nil))
      (.cons "version" (.number 5) .nil)))

/-- A sample node whose document sits at version 7. -/
def sampleNode7 : NodeState :=
  { nodeId := "n"
    state := ⟨.nil, 7, 0⟩
    peers := []
    reconnectTimeouts := []
    intervalTasks := []
    serverOpen := true }

/-- C4 witness: a `STATE_UPDATE` carrying version 5 against a document
at version 7 leaves the document unchanged and produces no effects. -/
theorem C4_witness :
    carriedVersionGt sampleStaleMsg sampleNode7.state.version = false ∧
    ((handleMessage 9 sampleStaleMsg ⟨0, 1⟩ sampleNode7).1.state =
        sampleNode7.state ∧
      (handleMessage 9 sampleStaleMsg ⟨0, 1⟩ sampleNode7).2 = []) :=
  ⟨by decide, C4_stale_message_noop 9 sampleStaleMsg ⟨0, 1⟩ sampleNode7
    (by decide)⟩

theorem peersHas_append_self (peers : List (JsValue × Peer)) (k : JsValue)
    (p : Peer) :
    peersHas (peers ++ [(k, p)]) k = true := by
  induction peers with
  | nil => simp [peersHas]
  | cons hd tl ih =>
      obtain ⟨k2, p2⟩ := hd
      by_cases h : k2 = k <;> simp [peersHas, h, ih]

/-- C10: a validated `INFO` message from an identity not yet in the
peer table registers that identity in the peer table even when the
carried version is not greater than the current document version; the
document itself is left unchanged.  Peer registration is independent
of the version check. -/
theorem C10_info_registers_peer (now : Rat) (message : JsValue) (ws : Ws)
    (n : NodeState)
    (hty : message.getField "type" = .string "INFO")
    (hval : validateMessage message = true)
    (hnew : peersHas n.peers (message.getField "nodeId") = false)
    (hstale : carriedVersionGt message n.state.version = false) :
    peersHas (handleMessage now message ws n).1.peers
        (message.getField "nodeId") = true ∧
    (handleMessage now message ws n).1.state = n.state := by
  rw [carriedVersionGt, if_pos hty] at hstale
  unfold handleMessage
  rw [hval]
  simp only [Bool.true_eq_false, if_false]
  split
  · rw [hnew]
    simp only [Bool.false_eq_true, if_false]
    rw [hstale]
    simp only [Bool.false_eq_true, if_false]
    exact ⟨peersHas_append_self n.peers (message.getField "nodeId") _, trivial⟩
  · rename_i heq
    rw [hty] at heq
    simp at heq
  · rename_i heq
    rw [hty] at heq
    simp at heq
  · rename_i h1 h2 h3
    exact absurd hty h1

/-- A sample inbound `INFO` handshake from the unknown identity
`"peer1"`, carrying a version-5 document snapshot. -/
def sampleInfoMsg : JsValue :=
  .object (.cons "type" (.string "INFO")
    (.cons "nodeId" (.string "peer1")
      (.cons "port" (.number 3001)
        (.cons "state"
          (.object (.cons "data" (.object .nil)
            (.cons "version" (.number 5)
              (.cons "timestamp" (.number 0) .nil)))) .nil))))

/-- C10 witness: the theorem applied to a stale `INFO` handshake
against a version-7 document. -/
theorem C10_witness :
    sampleInfoMsg.getField "type" = .string "INFO" ∧
    validateMessage sampleInfoMsg = true ∧
    peersHas sampleNode7.peers (sampleInfoMsg.getField "nodeId") = false ∧
    carriedVersionGt sampleInfoMsg sampleNode7.state.version = false ∧
    (peersHas (handleMessage 9 sampleInfoMsg ⟨0, 1⟩ sampleNode7).1.peers
        (sampleInfoMsg.getField "nodeId") = true ∧
      (handleMessage 9 sampleInfoMsg ⟨0, 1⟩ sampleNode7).1.state =
        sampleNode7.state) :=
  ⟨by decide, by decide, by decide, by decide,
   C10_info_registers_peer 9 sampleInfoMsg ⟨0, 1⟩ sampleNode7
     (by decide) (by decide) (by decide) (by decide)⟩

/-- A `STATE_UPDATE` wire message whose `version` field is the
non-integer number 5/2. -/
def nonIntegerVersionMsg : JsValue :=
  .object (.cons "type" (.string "STATE_UPDATE")
    (.cons "data" (.object (.cons "x" (.number 1) .nil))
      (.cons "version" (.number (Rat.mk' 5 2 (by decide) (by decide)))
        .nil)))

/-- C7 counterexample: the version 5/2 is not an integer, yet
`validateMessage` accepts the message (the source checks only
`typeof message.version === "number"`), and `handleMessage` even
applies it against a fresh document, leaving the document at the
non-integer version 5/2.  So a message whose version field is a
non-integer number is not rejected. -/
theorem C7_counterexample :
    ¬ (Rat.mk' 5 2 (by decide) (by decide)).isInt ∧
    validateMessage nonIntegerVersionMsg = true ∧
    (handleMessage 3 nonIntegerVersionMsg ⟨0, 1⟩
        (freshNode "n" 0)).1.state.version =
      Rat.mk' 5 2 (by decide) (by decide) := by decide

/-- C7 amended: `validateMessage` performs a structural check — a
`STATE_UPDATE` or `DELETE_STATE` whose `version` field is not a JS
number (and an `INFO` whose carried state version is not a number) is
rejected, though any number, integer or not, passes — and every
message that fails validation is dropped without mutating the node and
without producing any effect (no broadcast, no persistence write, no
fault). -/
theorem C7_validate_rejects_and_drops (now : Rat) (message : JsValue)
    (ws : Ws) (n : NodeState) :
    ((message.getField "type" = .string "STATE_UPDATE" ∨
      message.getField "type" = .string "DELETE_STATE") →
      (message.getField "version").typeOf ≠ "number" →
      validateMessage message = false) ∧
    (message.getField "type" = .string "INFO" →
      ((message.getField "state").getField "version").typeOf ≠ "number" →
      validateMessage message = false) ∧
    (validateMessage message = false →
      (handleMessage now message ws n).1 = n ∧
      (handleMessage now message ws n).2 = []) := by
  refine ⟨?_, ?_, ?_⟩
  · rintro (hty | hty) hver <;>
      simp [validateMessage, hty, hver]
  · intro hty hver
    simp [validateMessage, hty, hver]
  · intro hval
    unfold handleMessage
    rw [hval]
    simp only [if_true]
    exact ⟨trivial, trivial⟩

/-- A malformed `STATE_UPDATE` whose `version` is the string `"7"`. -/
def stringVersionMsg : JsValue :=
  .object (.cons "type" (.string "STATE_UPDATE")
    (.cons "data" (.object (.cons "x" (.number 1) .nil))
      (.cons "version" (.string "7") .nil)))

/-- C7 witness: the amended theorem applied to a `STATE_UPDATE` whose
version is a string — the message fails validation and handling it is
a total no-op. -/
theorem C7_witness :
    validateMessage stringVersionMsg = false ∧
    (handleMessage 3 stringVersionMsg ⟨0, 1⟩ sampleNode7).1 =
      sampleNode7 ∧
    (handleMessage 3 stringVersionMsg ⟨0, 1⟩ sampleNode7).2 = [] :=
  ⟨(C7_validate_rejects_and_drops 3 stringVersionMsg ⟨0, 1⟩
      sampleNode7).1 (Or.inl (by decide)) (by decide),
   ((C7_validate_rejects_and_drops 3 stringVersionMsg ⟨0, 1⟩
      sampleNode7).2.2 (by decide)).1,
   ((C7_validate_rejects_and_drops 3 stringVersionMsg ⟨0, 1⟩
      sampleNode7).2.2 (by decide)).2⟩

/-- Whether an effect is a `stateUpdated` event emission. -/
def Effect.isEmit : Effect → Bool
  | emit _ => true
  | _ => false

/-- C2 counterexample: a local `updateState` call changes the document
(version 0 becomes 1) yet none of its effects is a `stateUpdated`
emission — the local mutation paths of the source never emit. -/
theorem C2_counterexample :
    (updateState 1 "name" (.string "John") (freshNode "n" 0)).1.state ≠
      (freshNode "n" 0).state ∧
    ((updateState 1 "name" (.string "John") (freshNode "n" 0)).2.all
        (fun e => ! e.isEmit)) = true := by decide

/-- C2 amended: a `stateUpdated` notification carrying the (new)
document is emitted for every accepted inbound merge of an `INFO`,
`STATE_UPDATE` or `DELETE_STATE` message, but local `updateState` and
`deleteState` calls never emit one. -/
theorem C2_emit_only_inbound (now : Rat) (message : JsValue) (ws : Ws)
    (key : String) (value : JsValue) (n : NodeState)
    (hty : message.getField "type" = .string "INFO" ∨
      message.getField "type" = .string "STATE_UPDATE" ∨
      message.getField "type" = .string "DELETE_STATE")
    (hval : validateMessage message = true)
    (hacc : carriedVersionGt message n.state.version = true) :
    Effect.emit (handleMessage now message ws n).1.state ∈
      (handleMessage now message ws n).2 ∧
    (∀ e ∈ (updateState now key value n).2, e.isEmit = false) ∧
    (∀ e ∈ (deleteState now key n).2.1, e.isEmit = false) := by
  refine ⟨?_, ?_, ?_⟩
  · rw [carriedVersionGt] at hacc
    unfold handleMessage
    rw [hval]
    simp only [Bool.true_eq_false, if_false]
    rcases hty with hty | hty | hty
    · rw [if_pos hty] at hacc
      split
      · rw [hacc]
        simp only [if_true]
        simp
      · rename_i heq
        rw [hty] at heq
        simp at heq
      · rename_i heq
        rw [hty] at heq
        simp at heq
      · rename_i h1 h2 h3
        exact absurd hty h1
    · rw [if_neg (by rw [hty]; simp)] at hacc
      split
      · rename_i heq
        rw [hty] at heq
        simp at heq
      · rw [hacc]
        simp only [if_true]
        simp
      · rename_i heq
        rw [hty] at heq
        simp at heq
      · rename_i h1 h2 h3
        exact absurd hty h2
    · rw [if_neg (by rw [hty]; simp)] at hacc
      split
      · rename_i heq
        rw [hty] at heq
        simp at heq
      · rename_i heq
        rw [hty] at heq
        simp at heq
      · rw [hacc]
        simp only [if_true]
        simp
      · rename_i h1 h2 h3
        exact absurd hty h3
  · intro e he
    rcases List.mem_cons.mp he with rfl | hb
    · rfl
    · obtain ⟨pid, p, _, rfl, _, _⟩ := (mem_broadcast_iff _ _ _ _).mp hb
      rfl
  · intro e he
    by_cases hk : (n.state.data.lookup key).isSome
    · unfold deleteState at he
      rw [if_pos hk] at he
      rcases List.mem_cons.mp he with rfl | hb
      · rfl
      · obtain ⟨pid, p, _, rfl, _, _⟩ := (mem_broadcast_iff _ _ _ _).mp hb
        rfl
    · unfold deleteState at he
      rw [if_neg hk] at he
      simp at he

/-- C2 witness: the amended theorem applied to an accepted `INFO`
merge against a fresh node and to concrete local mutations. -/
theorem C2_witness :
    Effect.emit
        (handleMessage 9 sampleInfoMsg ⟨0, 1⟩ (freshNode "n" 0)).1.state ∈
      (handleMessage 9 sampleInfoMsg ⟨0, 1⟩ (freshNode "n" 0)).2 ∧
    (∀ e ∈ (updateState 9 "k" (.number 1) (freshNode "n" 0)).2,
      e.isEmit = false) ∧
    (∀ e ∈ (deleteState 9 "k" (freshNode "n" 0)).2.1,
      e.isEmit = false) :=
  C2_emit_only_inbound 9 sampleInfoMsg ⟨0, 1⟩ "k" (.number 1)
    (freshNode "n" 0) (Or.inl (by decide)) (by decide) (by decide)

/-- Whether an effect is a socket send. -/
def Effect.isSend : Effect → Bool
  | send _ _ => true
  | _ => false

/-- A node at document version 0 with one connected open peer (socket
id 5), distinct from the arrival socket (id 0). -/
def sampleNodeWithPeer : NodeState :=
  { nodeId := "n"
    state := ⟨.nil, 0, 0⟩
    peers := [(.string "peerB", ⟨⟨5, 1⟩, .number 3002⟩)]
    reconnectTimeouts := []
    intervalTasks := []
    serverOpen := true }

/-- C1 counterexample: an accepted inbound `INFO` mutation (carried
version 5 over current version 0) changes and persists the document,
yet is NOT forwarded: no send effect is produced although another
open peer is connected. -/
theorem C1_counterexample :
    carriedVersionGt sampleInfoMsg sampleNodeWithPeer.state.version
        = true ∧
    validateMessage sampleInfoMsg = true ∧
    (handleMessage 9 sampleInfoMsg ⟨0, 1⟩ sampleNodeWithPeer).1.state ≠
      sampleNodeWithPeer.state ∧
    Effect.save
        (handleMessage 9 sampleInfoMsg ⟨0, 1⟩ sampleNodeWithPeer).1.state
      ∈ (handleMessage 9 sampleInfoMsg ⟨0, 1⟩ sampleNodeWithPeer).2 ∧
    ((handleMessage 9 sampleInfoMsg ⟨0, 1⟩ sampleNodeWithPeer).2.all
        fun e => ! e.isSend) = true := by decide

theorem mem_save_broadcast_emit (d : Doc) (peers : List (JsValue × Peer))
    (msg : JsValue) (ws : Ws) (pid : JsValue) (p : Peer)
    (hmem : (pid, p) ∈ peers) (hne : p.ws ≠ ws)
    (hopen : p.ws.readyState = wsOPEN) :
    Effect.send p.ws msg ∈
      Effect.save d :: broadcast peers msg (some ws) ++ [Effect.emit d] :=
  List.mem_cons_of_mem _ (List.mem_append_left _
    ((mem_broadcast_iff peers msg (some ws) _).mpr
      ⟨pid, p, hmem, rfl, hopen, by simpa using Ne.symm hne⟩))

theorem not_send_excluded (d : Doc) (peers : List (JsValue × Peer))
    (msg : JsValue) (ws : Ws) (msg2 : JsValue) :
    Effect.send ws msg2 ∉
      Effect.save d :: broadcast peers msg (some ws) ++ [Effect.emit d] := by
  intro hmem
  rcases List.mem_cons.mp hmem with heq | hmem2
  · exact absurd heq (by simp)
  rcases List.mem_append.mp hmem2 with hb | he
  · obtain ⟨pid, p, _, heq3, _, hnex⟩ := (mem_broadcast_iff _ _ _ _).mp hb
    cases heq3
    exact hnex rfl
  · simp at he

/-- C1 amended: for an accepted inbound `STATE_UPDATE` or
`DELETE_STATE` the node first persists the new document and then
forwards the very same message to every connected open peer except
the one it arrived from (and to no socket it arrived on); an accepted
inbound `INFO` is persisted (and emitted) but NOT rebroadcast. -/
theorem C1_persist_then_broadcast (now : Rat) (message : JsValue)
    (ws : Ws) (n : NodeState)
    (hval : validateMessage message = true)
    (hacc : carriedVersionGt message n.state.version = true) :
    ((message.getField "type" = .string "STATE_UPDATE" ∨
      message.getField "type" = .string "DELETE_STATE") →
      (handleMessage now message ws n).2 =
        Effect.save (handleMessage now message ws n).1.state ::
          broadcast n.peers message (some ws) ++
            [Effect.emit (handleMessage now message ws n).1.state] ∧
      (∀ pid p, (pid, p) ∈ n.peers → p.ws ≠ ws →
        p.ws.readyState = wsOPEN →
        Effect.send p.ws message ∈ (handleMessage now message ws n).2) ∧
      (∀ msg2, Effect.send ws msg2 ∉ (handleMessage now message ws n).2)) ∧
    (message.getField "type" = .string "INFO" →
      (handleMessage now message ws n).2 =
        [Effect.save (handleMessage now message ws n).1.state,
         Effect.emit (handleMessage now message ws n).1.state]) := by
  rw [carriedVersionGt] at hacc
  constructor
  · rintro (hty | hty)
    · rw [if_neg (by rw [hty]; simp)] at hacc
      unfold handleMessage
      rw [hval]
      simp only [Bool.true_eq_false, if_false]
      split
      · rename_i heq
        rw [hty] at heq
        simp at heq
      · rw [hacc]
        simp only [if_true]
        refine ⟨trivial, ?_, ?_⟩
        · intro pid p hpm hne hopen
          exact mem_save_broadcast_emit _ n.peers message ws pid p hpm hne
            hopen
        · intro msg2
          exact not_send_excluded _ n.peers message ws msg2
      · rename_i heq
        rw [hty] at heq
        simp at heq
      · rename_i h1 h2 h3
        exact absurd hty h2
    · rw [if_neg (by rw [hty]; simp)] at hacc
      unfold handleMessage
      rw [hval]
      simp only [Bool.true_eq_false, if_false]
      split
      · rename_i heq
        rw [hty] at heq
        simp at heq
      · rename_i heq
        rw [hty] at heq
        simp at heq
      · rw [hacc]
        simp only [if_true]
        refine ⟨trivial, ?_, ?_⟩
        · intro pid p hpm hne hopen
          exact mem_save_broadcast_emit _ n.peers message ws pid p hpm hne
            hopen
        · intro msg2
          exact not_send_excluded _ n.peers message ws msg2
      · rename_i h1 h2 h3
        exact absurd hty h3
  · intro hty
    rw [if_pos hty] at hacc
    unfold handleMessage
    rw [hval]
    simp only [Bool.true_eq_false, if_false]
    split
    · rw [hacc]
      simp only [if_true]
    · rename_i heq
      rw [hty] at heq
      simp at heq
    · rename_i heq
      rw [hty] at heq
      simp at heq
    · rename_i h1 h2 h3
      exact absurd hty h1

/-- A sample inbound `STATE_UPDATE{data:{x:1}, version:9}` message. -/
def sampleFreshSU : JsValue :=
  .object (.cons "type" (.string "STATE_UPDATE")
    (.cons "data" (.object (.cons "x" (.number 1) .nil))
      (.cons "version" (.number 9) .nil)))

/-- C1 witness: the amended theorem applied to an accepted
`STATE_UPDATE` arriving on socket 0 at a node with one open peer. -/
theorem C1_witness :
    (handleMessage 9 sampleFreshSU ⟨0, 1⟩ sampleNodeWithPeer).2 =
      Effect.save
          (handleMessage 9 sampleFreshSU ⟨0, 1⟩ sampleNodeWithPeer).1.state
        :: broadcast sampleNodeWithPeer.peers sampleFreshSU (some ⟨0, 1⟩)
          ++ [Effect.emit
            (handleMessage 9 sampleFreshSU ⟨0, 1⟩
              sampleNodeWithPeer).1.state] :=
  ((C1_persist_then_broadcast 9 sampleFreshSU ⟨0, 1⟩ sampleNodeWithPeer
    (by decide) (by decide)).1 (Or.inl (by decide))).1

/-- C3 counterexample: after `shutdown` of an initialized node, the
four periodic interval tasks are still armed — the source never stores
the `setInterval` handles, so `shutdown` cannot cancel them and they
keep firing afterwards. -/
theorem C3_counterexample :
    (shutdown (initTimers (freshNode "n" 0))).1.intervalTasks ≠ [] ∧
    (shutdown (initTimers (freshNode "n" 0))).1.intervalTasks =
      ["updateNodeRegistry", "saveState", "startNetworkDiscovery",
       "checkPeerHealth"] := by decide

/-- C3 amended: when `shutdown()` returns, every pending reconnect
timer has been cancelled, every peer channel has received a close and
the peer table is empty, the listening endpoint is closed, and the
final effect is one last persistence snapshot; the four periodic
`setInterval` tasks, however, are not cancelled. -/
theorem C3_shutdown_teardown (n : NodeState) :
    (shutdown n).1.reconnectTimeouts = [] ∧
    (shutdown n).1.peers = [] ∧
    (shutdown n).1.serverOpen = false ∧
    (∀ pid p, (pid, p) ∈ n.peers →
      Effect.closeWs p.ws ∈ (shutdown n).2) ∧
    Effect.closeServer ∈ (shutdown n).2 ∧
    (shutdown n).2.getLast? = some (Effect.save n.state) ∧
    (shutdown n).1.intervalTasks = n.intervalTasks := by
  refine ⟨rfl, rfl, rfl, ?_, ?_, ?_, rfl⟩
  · intro pid p hmem
    exact List.mem_append_left _
      (List.mem_map.mpr ⟨(pid, p), hmem, rfl⟩)
  · exact List.mem_append_right _ (by simp)
  · show ((n.peers.map fun p => Effect.closeWs p.2.ws) ++
      [Effect.closeServer, Effect.save n.state]).getLast? =
        some (Effect.save n.state)
    rw [show (n.peers.map fun p => Effect.closeWs p.2.ws) ++
      [Effect.closeServer, Effect.save n.state] =
        ((n.peers.map fun p => Effect.closeWs p.2.ws) ++
          [Effect.closeServer]) ++ [Effect.save n.state] by simp]
    exact List.getLast?_concat _

/-- C3 witness: the amended theorem applied to an initialized node
holding one open peer. -/
theorem C3_witness :
    Effect.closeWs ⟨5, 1⟩ ∈
      (shutdown (initTimers sampleNodeWithPeer)).2 ∧
    (shutdown (initTimers sampleNodeWithPeer)).1.peers = [] :=
  ⟨(C3_shutdown_teardown (initTimers sampleNodeWithPeer)).2.2.2.1
      (.string "peerB") ⟨⟨5, 1⟩, .number 3002⟩ (by decide),
    (C3_shutdown_teardown (initTimers sampleNodeWithPeer)).2.1⟩

/-- C8: `save()` followed by a restart (a fresh node constructed from
the same secret key, hence the same identity, with the same canonical
file present) and `load()` reproduces the exact document: the same
data mapping, version and timestamp. -/
theorem C8_save_load_roundtrip (n : NodeState) (savedAt now2 : Rat)
    (hid : n.nodeId ≠ "") :
    (loadState (some (saveFileContent n savedAt))
      (freshNode n.nodeId now2)).state = n.state := by
  have hval : validateState (saveFileContent n savedAt) = true := by
    simp [validateState, saveFileContent, docToJs, JsValue.truthy,
      JsValue.typeOf, JsValue.getField, JsFields.lookup, hid]
  unfold loadState
  dsimp only
  rw [hval]
  simp only [Bool.true_eq_false, if_false]
  rw [if_pos (show (saveFileContent n savedAt).getField "nodeId" =
    .string (freshNode n.nodeId now2).nodeId from rfl)]
  rfl

/-- C8 witness: the round trip applied to a concrete node at version
7. -/
theorem C8_witness :
    (loadState (some (saveFileContent sampleNode7 42))
      (freshNode sampleNode7.nodeId 99)).state = sampleNode7.state :=
  C8_save_load_roundtrip sampleNode7 42 99 (by decide)

theorem getField_setObj_self (fs : JsFields) (k : String) (x : JsValue) :
    (setObjField (.object fs) k x).getField k = x := by
  simp [setObjField, JsValue.getField, lookup_set_self]

theorem getField_setObj_ne (fs : JsFields) (k k2 : String) (x : JsValue)
    (h : k2 ≠ k) :
    (setObjField (.object fs) k x).getField k2 =
      (JsValue.object fs).getField k2 := by
  simp [setObjField, JsValue.getField, lookup_set_ne _ _ _ _ h]

theorem validNodeInfo_object {info : JsValue}
    (h : validNodeInfo info = true) : ∃ fs, info = .object fs := by
  cases info <;>
    simp_all [validNodeInfo, JsValue.getField, JsValue.truthy]

theorem discoverNodes_mem (n : NodeState) (t : Rat) :
    ∀ (entries : List RegistryEntry) (d : JsValue),
      d ∈ (discoverNodes n t entries).1 →
      ∃ info, validNodeInfo info = true ∧ freshEnough t info = true ∧
        d = annotateInfo n info := by
  intro entries
  induction entries with
  | nil =>
      intro d hd
      simp [discoverNodes] at hd
  | cons e rest ih =>
      intro d hd
      rw [discoverNodes] at hd
      by_cases hj : isJsonFile e.name = false
      · rw [if_pos hj] at hd
        exact ih d hd
      · rw [if_neg hj] at hd
        by_cases hv : validNodeInfo e.content = false
        · rw [if_pos hv] at hd
          exact ih d hd
        · rw [if_neg hv] at hd
          by_cases hf : freshEnough t e.content = true
          · rw [if_pos hf] at hd
            dsimp only at hd
            rcases List.mem_cons.mp hd with rfl | hd2
            · exact ⟨e.content, by simpa using hv, hf, rfl⟩
            · exact ih d hd2
          · rw [if_neg hf] at hd
            exact ih d hd

theorem discoverNodes_deletes (n : NodeState) (t : Rat) :
    ∀ (entries : List RegistryEntry) (e : RegistryEntry),
      e ∈ entries → isJsonFile e.name = true →
      validNodeInfo e.content = true → freshEnough t e.content = false →
      e.name ∈ (discoverNodes n t entries).2 := by
  intro entries
  induction entries with
  | nil =>
      intro e he
      simp at he
  | cons e0 rest ih =>
      intro e he hjson hvalid hstale
      rcases List.mem_cons.mp he with rfl | hmem
      · rw [discoverNodes]
        rw [if_neg (by rw [hjson]; simp)]
        rw [if_neg (by rw [hvalid]; simp)]
        rw [if_neg (by rw [hstale]; simp)]
        exact List.mem_cons_self _ _
      · rw [discoverNodes]
        by_cases hj : isJsonFile e0.name = false
        · rw [if_pos hj]
          exact ih e hmem hjson hvalid hstale
        · rw [if_neg hj]
          by_cases hv : validNodeInfo e0.content = false
          · rw [if_pos hv]
            exact ih e hmem hjson hvalid hstale
          · rw [if_neg hv]
            by_cases hf : freshEnough t e0.content = true
            · rw [if_pos hf]
              exact ih e hmem hjson hvalid hstale
            · rw [if_neg hf]
              exact List.mem_cons_of_mem _ (ih e hmem hjson hvalid hstale)

theorem annotateInfo_getFields (n : NodeState) (fs : JsFields) :
    (annotateInfo n (.object fs)).getField "isSelf" =
      .boolean (decide ((JsValue.object fs).getField "nodeId" =
        .string n.nodeId)) ∧
    (annotateInfo n (.object fs)).getField "isConnected" =
      .boolean (peersHas n.peers
        ((JsValue.object fs).getField "nodeId")) ∧
    (annotateInfo n (.object fs)).getField "lastSeen" =
      (JsValue.object fs).getField "lastSeen" := by
  refine ⟨?_, ?_, ?_⟩
  · exact getField_setObj_self _ _ _
  · rw [show annotateInfo n (.object fs) =
      setObjField (.object (fs.set "isConnected"
        (.boolean (peersHas n.peers
          ((JsValue.object fs).getField "nodeId"))))) "isSelf"
        (.boolean (decide ((JsValue.object fs).getField "nodeId" =
          .string n.nodeId))) from rfl]
    rw [getField_setObj_ne _ _ _ _ (by decide)]
    exact getField_setObj_self fs "isConnected" _
  · rw [show annotateInfo n (.object fs) =
      setObjField (.object (fs.set "isConnected"
        (.boolean (peersHas n.peers
          ((JsValue.object fs).getField "nodeId"))))) "isSelf"
        (.boolean (decide ((JsValue.object fs).getField "nodeId" =
          .string n.nodeId))) from rfl]
    rw [getField_setObj_ne _ _ _ _ (by decide)]
    rw [show (JsValue.object (fs.set "isConnected"
        (.boolean (peersHas n.peers
          ((JsValue.object fs).getField "nodeId"))))) =
      setObjField (.object fs) "isConnected"
        (.boolean (peersHas n.peers
          ((JsValue.object fs).getField "nodeId"))) from rfl]
    exact getField_setObj_ne _ _ _ _ (by decide)

/-- C9: `discoverNodes()` returns no descriptor whose `lastSeen` is an
hour or more old (in particular none more than 1 hour old), deletes
every valid stale `.json` descriptor file from the registry, and every
returned descriptor is annotated with `isSelf` (identity equals this
node's) and `isConnected` (identity present in the peer table). -/
theorem C9_discoverNodes_spec (n : NodeState) (t : Rat)
    (entries : List RegistryEntry) :
    (∀ d ∈ (discoverNodes n t entries).1, ∀ q : Rat,
      d.getField "lastSeen" = .number q → t - q < 3600000) ∧
    (∀ e ∈ entries, isJsonFile e.name = true →
      validNodeInfo e.content = true → freshEnough t e.content = false →
      e.name ∈ (discoverNodes n t entries).2) ∧
    (∀ d ∈ (discoverNodes n t entries).1, ∃ info,
      d = annotateInfo n info ∧
      d.getField "isSelf" =
        .boolean (decide (info.getField "nodeId" = .string n.nodeId)) ∧
      d.getField "isConnected" =
        .boolean (peersHas n.peers (info.getField "nodeId"))) := by
  refine ⟨?_, ?_, ?_⟩
  · intro d hd q hq
    obtain ⟨info, hvalid, hfresh, rfl⟩ := discoverNodes_mem n t entries d hd
    obtain ⟨fs, rfl⟩ := validNodeInfo_object hvalid
    rw [(annotateInfo_getFields n fs).2.2] at hq
    unfold freshEnough at hfresh
    rw [hq] at hfresh
    simpa using hfresh
  · intro e he hjson hvalid hstale
    exact discoverNodes_deletes n t entries e he hjson hvalid hstale
  · intro d hd
    obtain ⟨info, hvalid, hfresh, rfl⟩ := discoverNodes_mem n t entries d hd
    obtain ⟨fs, rfl⟩ := validNodeInfo_object hvalid
    exact ⟨.object fs, rfl, (annotateInfo_getFields n fs).1,
      (annotateInfo_getFields n fs).2.1⟩

/-- A fresh registry descriptor for the connected peer `"peerB"`. -/
def freshEntry : RegistryEntry :=
  ⟨"peerB.json", .object (.cons "nodeId" (.string "peerB")
    (.cons "host" (.string "localhost")
      (.cons "port" (.number 3001)
        (.cons "lastSeen" (.number 10000000) .nil))))⟩

/-- A stale registry descriptor, last seen 10,000,000 ms before the
scan time. -/
def staleEntry : RegistryEntry :=
  ⟨"old.json", .object (.cons "nodeId" (.string "peerC")
    (.cons "host" (.string "localhost")
      (.cons "port" (.number 3002)
        (.cons "lastSeen" (.number 0) .nil))))⟩

/-- C9 witness: the theorem applied at a concrete scan — the stale
entry's file is deleted. -/
theorem C9_witness :
    staleEntry.name ∈
      (discoverNodes sampleNodeWithPeer 10000000
        [freshEntry, staleEntry]).2 :=
  (C9_discoverNodes_spec sampleNodeWithPeer 10000000
      [freshEntry, staleEntry]).2.1 staleEntry (by decide) (by decide)
    (by decide)
    (by
      have hls : staleEntry.content.getField "lastSeen" = .number 0 :=
        by decide
      unfold freshEnough
      rw [hls]
      norm_num)
